import Mathlib

/-!
# Verification of the incremental payment-channel controller

Shallow embedding of the payment-channel controller in `src/src/app/page.tsx`
(the first demo variant, lines 1–1039: `createPaymentChannel`,
`authorizePaymentChannelClaim`, `verifyPaymentChannelClaim`,
`claimPaymentChannel`, `closePaymentChannel`, `transferXRP`,
`handleEndCall`), together with theorems settling the specification's
claims about it.

Modelling conventions:
* React `useState` state cells relevant to the controller are collected in
  `AppState`.  UI-only cells (`status`, `logs`, balances, NFT state) are
  omitted: no claim mentions them and the controller never reads them.
* The external XRPL client (`client.request`, `client.submitAndWait`) is a
  `Gateway` record of response functions; a sequence of ticks that may see
  different network answers is modelled as a list of gateways, one per tick.
* Every controller operation returns, besides its result, the list of
  gateway interactions it performed (`GwCall`), in order, so that claims
  about *which* requests were sent and with *which* amounts are statable.
* Amounts are `Nat` drops; `xrpToDrops` is the xrpl library conversion
  XRP → drops, exact on the whole-XRP amounts this controller uses.
* Every awaited callee in `handleEndCall` (`authorizePaymentChannelClaim`,
  `verifyPaymentChannelClaim`, `claimPaymentChannel`, `updateBalances`,
  `closePaymentChannel`) wraps its body in `try/catch` and returns a value
  on every path, so the embedding is total and the dead `catch` branch of
  `handleEndCall` is not modelled.
-/

namespace PWC

/-- `const TRANSFER_AMOUNT = 1` (page.tsx line 6): XRP grown per tick. -/
def TRANSFER_AMOUNT : Nat := 1

/-- `xrpToDrops` from the xrpl library: converts a whole-XRP amount to
drops, 1 XRP = 10^6 drops.  Exact integer arithmetic. -/
def xrpToDrops (xrp : Nat) : Nat := xrp * 1000000

/-- The reserve funded into the channel by `createPaymentChannel`:
`Amount: xrpToDrops(10)` (page.tsx line 474). -/
def channelReserveXRP : Nat := 10

/-- An xrpl `Wallet` as used by the controller: address, public key, seed. -/
structure Wallet where
  address : String
  publicKey : String
  seed : String
deriving DecidableEq, Repr

/-- The claim object returned by `authorizePaymentChannelClaim`:
`{ signature, amount: xrpToDrops(amount) }`.  `amount` is in drops. -/
structure Claim where
  signature : String
  amount : Nat
deriving DecidableEq, Repr

/-- A `CreatedNode` entry of the transaction metadata
(`PaymentChannelMeta.AffectedNodes[i].CreatedNode`). -/
structure CreatedNode where
  ledgerEntryType : String
  ledgerIndex : String
deriving DecidableEq, Repr

/-- One entry of `meta.AffectedNodes`; the `CreatedNode` field is optional. -/
structure AffectedNode where
  createdNode : Option CreatedNode
deriving DecidableEq, Repr

/-- The metadata of a confirmed `submitAndWait` result as inspected by
`createPaymentChannel`: either unusable (`meta` absent or a string) or a
list of affected nodes. -/
inductive TxMeta where
  | missing : TxMeta
  | nodes : List AffectedNode → TxMeta
deriving DecidableEq, Repr

/-- The external XRPL client seen through the requests this controller
makes.  Each field gives the network's answer to one kind of request;
`none` on `channelAuthorize`/`createChannelResult` stands for a thrown
error or an answer without the expected field. -/
structure Gateway where
  /-- `channel_authorize` request: channel, amount (drops), secret ↦
  the `signature` field of the response, or `none` when the request fails
  or returns no signature. -/
  channelAuthorize : String → Nat → String → Option String
  /-- `channel_verify` request: channel, signature, public key, amount
  (drops) ↦ the `signature_verified` field (false also when the request
  throws: the code's `catch` returns false). -/
  channelVerify : String → String → String → Nat → Bool
  /-- `submitAndWait` of the `PaymentChannelClaim` redemption transaction:
  channel, amount (drops), signature ↦ whether the transaction result is
  `tesSUCCESS` (false also on exception). -/
  submitClaimTx : String → Nat → String → Bool
  /-- `submitAndWait` of the `PaymentChannelClaim` close transaction
  (tfClose): channel ↦ whether the result is `tesSUCCESS`. -/
  submitCloseTx : String → Bool
  /-- `submitAndWait` of the `PaymentChannelCreate` transaction:
  `none` when it throws, otherwise the metadata of the validated result. -/
  createChannelResult : Option TxMeta

/-- The React state cells of the first demo component that the
payment-channel controller reads or writes. -/
structure AppState where
  hasClient : Bool
  wallet1 : Option Wallet
  wallet2 : Option Wallet
  channelId : Option String
  isCallActive : Bool
  time : Nat
  totalTransferred : Nat
  lastAuthorizedAmount : Nat
deriving DecidableEq, Repr

/-- One gateway interaction performed by a controller operation, with the
arguments the source passes. -/
inductive GwCall where
  | createChannel (dropsAmount : Nat) : GwCall
  | authorize (channel : String) (dropsAmount : Nat) : GwCall
  | verify (channel signature publicKey : String) (dropsAmount : Nat) : GwCall
  | submitClaim (channel : String) (dropsAmount : Nat) (signature : String) : GwCall
  | close (channel : String) : GwCall
deriving DecidableEq, Repr

/-- The drops amount a gateway call carries, when it carries one. -/
def GwCall.dropsOf : GwCall → Option Nat
  | .createChannel d => some d
  | .authorize _ d => some d
  | .verify _ _ _ d => some d
  | .submitClaim _ d _ => some d
  | .close _ => none

/-- The search predicate of `createPaymentChannel`'s
`meta.AffectedNodes.find(...)`:
`node.CreatedNode?.LedgerEntryType === "PayChannel"`. -/
def isPayChannelCreated (n : AffectedNode) : Bool :=
  match n.createdNode with
  | some c => c.ledgerEntryType == "PayChannel"
  | none => false

/-- `createPaymentChannel` (page.tsx lines 465–511): submits a
`PaymentChannelCreate` for `xrpToDrops 10`, searches the confirmation's
`AffectedNodes` for a `CreatedNode` of `LedgerEntryType === "PayChannel"`,
and on success stores and returns its `LedgerIndex`; every failure path
(guard, thrown submit, unusable meta, no matching node) returns `none`
and leaves the state unchanged. -/
def createPaymentChannel (g : Gateway) (s : AppState) :
    AppState × Option String × List GwCall :=
  match s.wallet1, s.wallet2 with
  | some _, some _ =>
    if s.hasClient then
      match g.createChannelResult with
      | none => (s, none, [.createChannel (xrpToDrops 10)])
      | some .missing => (s, none, [.createChannel (xrpToDrops 10)])
      | some (.nodes l) =>
        match l.find? isPayChannelCreated with
        | some n =>
          match n.createdNode with
          | some c =>
            ({ s with channelId := some c.ledgerIndex },
              some c.ledgerIndex, [.createChannel (xrpToDrops 10)])
          | none => (s, none, [.createChannel (xrpToDrops 10)])
        | none => (s, none, [.createChannel (xrpToDrops 10)])
    else (s, none, [])
  | _, _ => (s, none, [])

/-- `authorizePaymentChannelClaim` (page.tsx lines 514–548): guard on
client, wallet1 and channelId; sends `channel_authorize` with
`amount: xrpToDrops(amount)` and the wallet's seed; returns
`{ signature, amount: xrpToDrops(amount) }` when the response carries a
signature, `none` otherwise. -/
def authorizePaymentChannelClaim (g : Gateway) (s : AppState) (amount : Nat) :
    Option Claim × List GwCall :=
  match s.wallet1, s.channelId with
  | some w1, some ch =>
    if s.hasClient then
      match g.channelAuthorize ch (xrpToDrops amount) w1.seed with
      | some sig =>
        (some { signature := sig, amount := xrpToDrops amount },
          [.authorize ch (xrpToDrops amount)])
      | none => (none, [.authorize ch (xrpToDrops amount)])
    else (none, [])
  | _, _ => (none, [])

/-- `verifyPaymentChannelClaim` (page.tsx lines 551–585): guard on client,
wallet1 and channelId (returns false); sends `channel_verify` with the
given signature, the wallet's public key and the given amount; returns
the `signature_verified` answer. -/
def verifyPaymentChannelClaim (g : Gateway) (s : AppState)
    (signature : String) (amount : Nat) : Bool × List GwCall :=
  match s.wallet1, s.channelId with
  | some w1, some ch =>
    if s.hasClient then
      (g.channelVerify ch signature w1.publicKey amount,
        [.verify ch signature w1.publicKey amount])
    else (false, [])
  | _, _ => (false, [])

/-- `claimPaymentChannel` (page.tsx lines 588–627): guard on client,
wallet2 and channelId; submits the `PaymentChannelClaim` redemption
transaction with the given amount and signature; `some true` on
`tesSUCCESS` (the subsequent `updateBalances` touches only balance/UI
cells, not modelled), `some false` otherwise, `none` on the guard. -/
def claimPaymentChannel (g : Gateway) (s : AppState)
    (signature : String) (amount : Nat) : Option Bool × List GwCall :=
  match s.wallet2, s.channelId with
  | some _, some ch =>
    if s.hasClient then
      (some (g.submitClaimTx ch amount signature),
        [.submitClaim ch amount signature])
    else (none, [])
  | _, _ => (none, [])

/-- `closePaymentChannel` (page.tsx lines 630–671): guard on client,
wallet1 and channelId; submits the close transaction (tfClose); on
`tesSUCCESS` clears `channelId` and zeroes `totalTransferred` and returns
`some true`; returns `some false` on a non-success result or exception,
`none` on the guard. -/
def closePaymentChannel (g : Gateway) (s : AppState) :
    AppState × Option Bool × List GwCall :=
  match s.wallet1, s.channelId with
  | some _, some ch =>
    if s.hasClient then
      if g.submitCloseTx ch then
        ({ s with channelId := none, totalTransferred := 0 },
          some true, [.close ch])
      else (s, some false, [.close ch])
    else (s, none, [])
  | _, _ => (s, none, [])

/-- `transferXRP` (page.tsx lines 674–704), split into the closure
snapshot and the commit.  The function is an async closure: its guard
(`!client || !wallet1 || !wallet2 || !channelId || !isCallActive`) and its
read of `totalTransferred` (for `nextAuthAmount`) use the values captured
at entry (`s0`), while the final
`setTotalTransferred((prev) => prev + TRANSFER_AMOUNT)` is a functional
updater applied to whatever the state is when the awaited round trip
completes (`scommit`).  No guard is re-checked at commit time.
`transferXRPAt g s0 scommit` is the state after the update lands, with the
gateway calls made. -/
def transferXRPAt (g : Gateway) (s0 scommit : AppState) :
    AppState × List GwCall :=
  match s0.wallet1, s0.wallet2, s0.channelId with
  | some _, some _, some _ =>
    if s0.hasClient && s0.isCallActive then
      let nextAuthAmount := s0.totalTransferred + TRANSFER_AMOUNT
      match authorizePaymentChannelClaim g s0 nextAuthAmount with
      | (none, calls) => (scommit, calls)
      | (some claim, calls) =>
        match verifyPaymentChannelClaim g s0 claim.signature claim.amount with
        | (true, calls2) =>
          ({ scommit with
              totalTransferred := scommit.totalTransferred + TRANSFER_AMOUNT },
            calls ++ calls2)
        | (false, calls2) => (scommit, calls ++ calls2)
    else (scommit, [])
  | _, _, _ => (scommit, [])

/-- `transferXRP` run to completion with no interleaved state change: the
commit applies to the same state the closure captured. -/
def transferXRP (g : Gateway) (s : AppState) : AppState × List GwCall :=
  transferXRPAt g s s

/-- The interval callback installed by the `useEffect` (page.tsx lines
706–728): fires only while the interval is installed, and re-checks
`isCallActive` before calling `transferXRP`. -/
def transferTickCallback (g : Gateway) (s : AppState) :
    AppState × List GwCall :=
  if s.isCallActive then transferXRP g s else (s, [])

/-- A sequence of (synchronous) ticks, each observing its own gateway
answers. -/
def runTicks (gs : List Gateway) (s : AppState) : AppState :=
  gs.foldl (fun s g => (transferXRP g s).1) s

/-- The guard of `transferXRP`: all handles present and the call active. -/
def tickRuns (s : AppState) : Bool :=
  s.hasClient && s.wallet1.isSome && s.wallet2.isSome &&
    s.channelId.isSome && s.isCallActive

/-- A tick from state `s` is successful when `authorizePaymentChannelClaim`
returns a claim for the grown amount and `verifyPaymentChannelClaim`
accepts that claim. -/
def tickSuccessful (g : Gateway) (s : AppState) : Prop :=
  ∃ claim,
    (authorizePaymentChannelClaim g s (s.totalTransferred + TRANSFER_AMOUNT)).1
      = some claim ∧
    (verifyPaymentChannelClaim g s claim.signature claim.amount).1 = true

instance (g : Gateway) (s : AppState) : Decidable (tickSuccessful g s) := by
  unfold tickSuccessful
  match h : (authorizePaymentChannelClaim g s (s.totalTransferred + TRANSFER_AMOUNT)).1 with
  | none => exact .isFalse (by simp [h])
  | some c =>
    match h2 : (verifyPaymentChannelClaim g s c.signature c.amount).1 with
    | true => exact .isTrue ⟨c, by simp [h, h2]⟩
    | false => exact .isFalse (by simp [h, h2])

/-- Every tick of a run is successful, each from the state the previous
ticks reached. -/
def SuccessfulRun : List Gateway → AppState → Prop
  | [], _ => True
  | g :: gs, s => tickRuns s = true ∧ tickSuccessful g s ∧
      SuccessfulRun gs (transferXRP g s).1

/-- `handleEndCall` (page.tsx lines 766–815).  On the guard
(`!client || !wallet1 || !wallet2 || !channelId`) it only deactivates the
call and zeroes the timer.  Otherwise it deactivates the call; if
`totalTransferred > 0` it authorizes a final claim for that total, and if
the claim is returned and verifies, submits it (the `updateBalances`
after a successful submission touches only balance/UI cells); in every
case it then calls `closePaymentChannel` and finally zeroes `time`,
`totalTransferred` and `lastAuthorizedAmount`.  All awaited callees catch
their errors internally, so the surrounding `catch` is unreachable. -/
def handleEndCall (g : Gateway) (s : AppState) : AppState × List GwCall :=
  match s.wallet1, s.wallet2, s.channelId with
  | some _, some _, some _ =>
    if s.hasClient then
      let s1 : AppState := { s with isCallActive := false }
      let finalPhase : AppState × List GwCall :=
        if s1.totalTransferred > 0 then
          match authorizePaymentChannelClaim g s1 s1.totalTransferred with
          | (some finalClaim, callsA) =>
            match verifyPaymentChannelClaim g s1
                finalClaim.signature finalClaim.amount with
            | (true, callsV) =>
              let (_, callsC) :=
                claimPaymentChannel g s1 finalClaim.signature finalClaim.amount
              (s1, callsA ++ callsV ++ callsC)
            | (false, callsV) => (s1, callsA ++ callsV)
          | (none, callsA) => (s1, callsA)
        else (s1, [])
      let (s2, calls) := finalPhase
      let (s3, _, callsClose) := closePaymentChannel g s2
      ({ s3 with time := 0, totalTransferred := 0, lastAuthorizedAmount := 0 },
        calls ++ callsClose)
    else ({ s with isCallActive := false, time := 0 }, [])
  | _, _, _ => ({ s with isCallActive := false, time := 0 }, [])

/-- Does the call list contain a channel-close submission? -/
def closeSubmitted (calls : List GwCall) : Bool :=
  calls.any fun c => match c with | .close _ => true | _ => false

/-- Does the call list contain a `channel_authorize` request? -/
def authorizeRequested (calls : List GwCall) : Bool :=
  calls.any fun c => match c with | .authorize _ _ => true | _ => false

/-- Does the call list contain a claim-redemption submission? -/
def claimSubmitted (calls : List GwCall) : Bool :=
  calls.any fun c => match c with | .submitClaim _ _ _ => true | _ => false

instance SuccessfulRun.dec :
    (gs : List Gateway) → (s : AppState) → Decidable (SuccessfulRun gs s)
  | [], _ => .isTrue trivial
  | g :: gs, s =>
    have : Decidable (SuccessfulRun gs (transferXRP g s).1) :=
      SuccessfulRun.dec gs (transferXRP g s).1
    by unfold SuccessfulRun; infer_instance

/-! ## Concrete fixtures used by witnesses and counterexamples -/

/-- A concrete source wallet. -/
def wA : Wallet := { address := "rSRC", publicKey := "PUBA", seed := "sSEEDA" }

/-- A concrete destination wallet. -/
def wB : Wallet := { address := "rDST", publicKey := "PUBB", seed := "sSEEDB" }

/-- A gateway whose every request succeeds. -/
def gOK : Gateway where
  channelAuthorize := fun _ _ _ => some "SIGOK"
  channelVerify := fun _ _ _ _ => true
  submitClaimTx := fun _ _ _ => true
  submitCloseTx := fun _ => true
  createChannelResult :=
    some (.nodes [⟨some ⟨"PayChannel", "CHAN1"⟩⟩])

/-- A gateway whose every request fails. -/
def gDown : Gateway where
  channelAuthorize := fun _ _ _ => none
  channelVerify := fun _ _ _ _ => false
  submitClaimTx := fun _ _ _ => false
  submitCloseTx := fun _ => false
  createChannelResult := none

/-- The state right after a successful `handleStartCall`: channel open,
counters zeroed, call active. -/
def sOpen : AppState where
  hasClient := true
  wallet1 := some wA
  wallet2 := some wB
  channelId := some "CHAN1"
  isCallActive := true
  time := 0
  totalTransferred := 0
  lastAuthorizedAmount := 0

/-- A mid-session state: three XRP already authorized. -/
def sMid : AppState := { sOpen with totalTransferred := 3, time := 15 }

/-- Deterministic fake signature over a channel and a drops amount, for
the internally consistent fake gateway. -/
def mkFakeSig (chan : String) (a : Nat) : String :=
  chan ++ "#" ++ toString a

/-- An internally consistent fake gateway: its verification accepts
exactly the signatures its authorization produces for the same channel
and amount. -/
def gFake : Gateway where
  channelAuthorize := fun chan a _ => some (mkFakeSig chan a)
  channelVerify := fun chan sig _ a => sig == mkFakeSig chan a
  submitClaimTx := fun _ _ _ => true
  submitCloseTx := fun _ => true
  createChannelResult := none

/-! ## Single-tick lemmas -/

/-- A tick whose closure captured state `s0` with a passing guard, and
whose authorization and verification (against `s0`'s captured values)
succeed, commits exactly `+ TRANSFER_AMOUNT` onto the state present when
the async result lands, and changes nothing else of that state. -/
theorem transferXRPAt_success (g : Gateway) (s0 scommit : AppState)
    (hrun : tickRuns s0 = true) (hsucc : tickSuccessful g s0) :
    (transferXRPAt g s0 scommit).1
      = { scommit with
          totalTransferred := scommit.totalTransferred + TRANSFER_AMOUNT } := by
  obtain ⟨claim, hauth, hver⟩ := hsucc
  unfold tickRuns at hrun
  simp only [Bool.and_eq_true, Option.isSome_iff_exists] at hrun
  obtain ⟨⟨⟨⟨hc, w1, hw1⟩, w2, hw2⟩, ch, hch⟩, hact⟩ := hrun
  unfold transferXRPAt
  rw [hw1, hw2, hch]
  simp only [hc, hact, Bool.and_self, if_true]
  split
  next calls heq =>
    rw [heq] at hauth
    simp at hauth
  next claim' calls heq =>
    rw [heq] at hauth
    simp only [Option.some.injEq] at hauth
    subst hauth
    split
    next calls2 heq2 => rfl
    next calls2 heq2 =>
      rw [heq2] at hver
      simp at hver

/-- A synchronous tick whose guard passes, whose authorization returns a
claim and whose verification accepts it commits exactly
`totalTransferred + TRANSFER_AMOUNT` and changes nothing else. -/
theorem transferXRP_success (g : Gateway) (s : AppState)
    (hrun : tickRuns s = true) (hsucc : tickSuccessful g s) :
    (transferXRP g s).1
      = { s with totalTransferred := s.totalTransferred + TRANSFER_AMOUNT } :=
  transferXRPAt_success g s s hrun hsucc

/-- A tick that is not successful (guard failed, no claim returned, or
verification refused) leaves the whole state unchanged. -/
theorem transferXRP_failure (g : Gateway) (s : AppState)
    (hfail : ¬ tickSuccessful g s) :
    (transferXRP g s).1 = s := by
  unfold transferXRP transferXRPAt
  rcases hw1 : s.wallet1 with _ | w1 <;>
    rcases hw2 : s.wallet2 with _ | w2 <;>
    rcases hch : s.channelId with _ | ch <;>
    simp only
  by_cases hg : (s.hasClient && s.isCallActive) = true
  · simp only [hg, if_true]
    split
    next calls heq => rfl
    next claim calls heq =>
      split
      next calls2 heq2 =>
        exact absurd ⟨claim, by rw [heq], by rw [heq2]⟩ hfail
      next calls2 heq2 => rfl
  · simp [hg]

theorem runTicks_nil (s : AppState) : runTicks [] s = s := rfl

theorem runTicks_cons (g : Gateway) (gs : List Gateway) (s : AppState) :
    runTicks (g :: gs) s = runTicks gs (transferXRP g s).1 := rfl

/-- Along a successful run, the total after the first `n` ticks is the
initial total plus `n` increments. -/
theorem runTicks_successful (gs : List Gateway) (s : AppState)
    (h : SuccessfulRun gs s) (n : Nat) (hn : n ≤ gs.length) :
    (runTicks (gs.take n) s).totalTransferred
      = s.totalTransferred + n * TRANSFER_AMOUNT := by
  induction gs generalizing s n with
  | nil =>
    have hz : n = 0 := Nat.le_zero.mp hn
    subst hz
    simp [runTicks]
  | cons g gs ih =>
    obtain ⟨hrun, hsucc, htail⟩ := h
    cases n with
    | zero => simp [runTicks]
    | succ m =>
      have hstep := transferXRP_success g s hrun hsucc
      have hm : m ≤ gs.length := by simpa using hn
      calc (runTicks ((g :: gs).take (m + 1)) s).totalTransferred
          = (runTicks (gs.take m) (transferXRP g s).1).totalTransferred := by
            rw [List.take_succ_cons, runTicks_cons]
        _ = (transferXRP g s).1.totalTransferred + m * TRANSFER_AMOUNT :=
            ih (transferXRP g s).1 htail m hm
        _ = s.totalTransferred + (m + 1) * TRANSFER_AMOUNT := by
            rw [hstep]; simp [TRANSFER_AMOUNT]; omega

/-! ## Claims -/

/-- C1: For every sequence of successful ticks (each tick's
`authorizePaymentChannelClaim` returns a claim and
`verifyPaymentChannelClaim` returns true), `totalTransferred` is
non-decreasing and each successful tick increases it by exactly the fixed
increment `TRANSFER_AMOUNT = 1`: after any first `n` ticks of the run the
total is the initial total plus `n * TRANSFER_AMOUNT`, and the totals
along the run are monotone. -/
theorem C1_successful_run (gs : List Gateway) (s : AppState)
    (h : SuccessfulRun gs s) :
    TRANSFER_AMOUNT = 1 ∧
    (∀ n, n ≤ gs.length →
      (runTicks (gs.take n) s).totalTransferred
        = s.totalTransferred + n * TRANSFER_AMOUNT) ∧
    (∀ m n, m ≤ n → n ≤ gs.length →
      (runTicks (gs.take m) s).totalTransferred
        ≤ (runTicks (gs.take n) s).totalTransferred) := by
  refine ⟨rfl, fun n hn => runTicks_successful gs s h n hn,
    fun m n hmn hn => ?_⟩
  rw [runTicks_successful gs s h m (le_trans hmn hn),
    runTicks_successful gs s h n hn]
  have hmul : m * TRANSFER_AMOUNT ≤ n * TRANSFER_AMOUNT :=
    Nat.mul_le_mul_right _ hmn
  omega

/-- Witness for C1: three successful ticks from a fresh channel raise the
total from 0 to 3. -/
theorem C1_successful_run_witness :
    TRANSFER_AMOUNT = 1 ∧
    (runTicks ((List.replicate 3 gOK).take 3) sOpen).totalTransferred
      = sOpen.totalTransferred + 3 * TRANSFER_AMOUNT :=
  ⟨(C1_successful_run (List.replicate 3 gOK) sOpen (by decide)).1,
    (C1_successful_run (List.replicate 3 gOK) sOpen (by decide)).2.1 3
      (by decide)⟩

/-- C2: a tick during which authorization returns no claim or
verification returns false leaves the entire state (in particular
`totalTransferred`) unchanged, and a subsequent successful tick grows the
total by one increment from the last committed total — one
failed-then-successful tick pair adds exactly `TRANSFER_AMOUNT`, not
twice that. -/
theorem C2_failed_tick_noop (g g2 : Gateway) (s : AppState)
    (hfail : ¬ tickSuccessful g s) :
    (transferXRP g s).1 = s ∧
    (tickRuns s = true → tickSuccessful g2 s →
      (transferXRP g2 (transferXRP g s).1).1.totalTransferred
        = s.totalTransferred + TRANSFER_AMOUNT) := by
  have h1 := transferXRP_failure g s hfail
  refine ⟨h1, fun hrun hsucc => ?_⟩
  rw [h1, transferXRP_success g2 s hrun hsucc]

/-- Witness for C2: with the gateway down the tick is a no-op from the
fresh state, and a following successful tick reaches total 1, not 2. -/
theorem C2_failed_tick_noop_witness :
    (transferXRP gDown sOpen).1 = sOpen ∧
    (transferXRP gOK (transferXRP gDown sOpen).1).1.totalTransferred
      = sOpen.totalTransferred + TRANSFER_AMOUNT :=
  ⟨(C2_failed_tick_noop gDown gOK sOpen (by decide)).1,
    (C2_failed_tick_noop gDown gOK sOpen (by decide)).2 (by decide) (by decide)⟩

/-- C3 is refuted by the code: nothing clamps `totalTransferred` to the
funded reserve.  Eleven successful ticks from a fresh channel opened with
the 10 XRP reserve form a successful run, drive `totalTransferred` to 11,
strictly above the reserve, and the eleventh tick sends the gateway an
authorization request for `xrpToDrops 11` drops, strictly above the
funded `xrpToDrops channelReserveXRP`. -/
theorem C3_reserve_not_enforced :
    channelReserveXRP = 10 ∧
    SuccessfulRun (List.replicate 11 gOK) sOpen ∧
    (runTicks (List.replicate 11 gOK) sOpen).totalTransferred = 11 ∧
    channelReserveXRP
      < (runTicks (List.replicate 11 gOK) sOpen).totalTransferred ∧
    (transferXRP gOK (runTicks (List.replicate 10 gOK) sOpen)).2
      = [.authorize "CHAN1" (xrpToDrops 11),
         .verify "CHAN1" "SIGOK" "PUBA" (xrpToDrops 11)] ∧
    xrpToDrops channelReserveXRP < xrpToDrops 11 :=
  ⟨rfl, by decide, by decide, by decide, by decide, by decide⟩

/-- C5: ending a session stops future ticks — the interval callback with
an inactive flag leaves the state untouched — but an in-flight tick whose
closure captured an active state `s0` and whose authorize/verify round
trip succeeded commits `+ TRANSFER_AMOUNT` onto whatever state is current
when its result lands, regardless of that state's active-session flag. -/
theorem C5_inflight_commit (g : Gateway) (s0 : AppState) (claim : Claim)
    (hrun : tickRuns s0 = true)
    (hauth : (authorizePaymentChannelClaim g s0
        (s0.totalTransferred + TRANSFER_AMOUNT)).1 = some claim)
    (hver : (verifyPaymentChannelClaim g s0 claim.signature claim.amount).1
        = true) :
    (∀ g' s, s.isCallActive = false → (transferTickCallback g' s).1 = s) ∧
    (∀ scommit : AppState,
      (transferXRPAt g s0 scommit).1.totalTransferred
        = scommit.totalTransferred + TRANSFER_AMOUNT) := by
  constructor
  · intro g' s hs
    unfold transferTickCallback
    simp [hs]
  · intro scommit
    rw [transferXRPAt_success g s0 scommit hrun ⟨claim, hauth, hver⟩]

/-- Witness for C5: a tick begun in the active fresh state lands on a
deactivated mid-session state and still raises its total by 1. -/
theorem C5_inflight_commit_witness :
    (transferTickCallback gOK { sMid with isCallActive := false }).1
      = { sMid with isCallActive := false } ∧
    (transferXRPAt gOK sOpen { sMid with isCallActive := false }).1.totalTransferred
      = ({ sMid with isCallActive := false } : AppState).totalTransferred
          + TRANSFER_AMOUNT :=
  ⟨(C5_inflight_commit gOK sOpen ⟨"SIGOK", xrpToDrops 1⟩ (by decide)
      (by decide) (by decide)).1 gOK { sMid with isCallActive := false } rfl,
   (C5_inflight_commit gOK sOpen ⟨"SIGOK", xrpToDrops 1⟩ (by decide)
      (by decide) (by decide)).2 { sMid with isCallActive := false }⟩

/-- C6: for every channel and amount, verifying the signature and amount
returned by `authorizePaymentChannelClaim` succeeds whenever the
gateway's sign and verify endpoints are internally consistent — its
verification (against the source wallet's public key) accepts exactly
the signatures its authorization (with the source wallet's seed)
produces for the same channel and amount. -/
theorem C6_roundtrip (g : Gateway) (s : AppState) (w1 : Wallet)
    (ch : String) (hw1 : s.wallet1 = some w1) (hch : s.channelId = some ch)
    (hc : s.hasClient = true)
    (hconsist : ∀ chan a sig,
      g.channelVerify chan sig w1.publicKey a = true ↔
        g.channelAuthorize chan a w1.seed = some sig)
    (amount : Nat) (claim : Claim)
    (hauth : (authorizePaymentChannelClaim g s amount).1 = some claim) :
    (verifyPaymentChannelClaim g s claim.signature claim.amount).1 = true := by
  unfold authorizePaymentChannelClaim at hauth
  rw [hw1, hch] at hauth
  simp only [hc, if_true] at hauth
  cases hA : g.channelAuthorize ch (xrpToDrops amount) w1.seed with
  | none => rw [hA] at hauth; simp at hauth
  | some sig =>
    rw [hA] at hauth
    simp only [Option.some.injEq] at hauth
    subst hauth
    unfold verifyPaymentChannelClaim
    rw [hw1, hch]
    simp only [hc, if_true]
    exact (hconsist ch (xrpToDrops amount) sig).mpr hA

/-- On the guard path (a missing handle or client), `handleEndCall` only
deactivates the call and zeroes the timer, and performs no gateway
interaction. -/
theorem handleEndCall_guard (g : Gateway) (s : AppState)
    (h : s.hasClient = false ∨ s.wallet1 = none ∨ s.wallet2 = none ∨
      s.channelId = none) :
    handleEndCall g s = ({ s with isCallActive := false, time := 0 }, []) := by
  unfold handleEndCall
  rcases hw1 : s.wallet1 with _ | w1 <;>
    rcases hw2 : s.wallet2 with _ | w2 <;>
    rcases hch : s.channelId with _ | ch <;>
    simp only
  rcases h with h | h | h | h
  · simp [h]
  · rw [hw1] at h; cases h
  · rw [hw2] at h; cases h
  · rw [hch] at h; cases h

/-- On the main path (client, wallets and channel present),
`handleEndCall` zeroes `totalTransferred` and `lastAuthorizedAmount`,
preserves the client and wallet handles, always submits the channel-close
transaction, and — when the session total is already 0 — submits nothing
else. -/
theorem handleEndCall_main_spec (g : Gateway) (w1 w2 : Wallet) (ch : String)
    (act : Bool) (t total last : Nat) :
    (handleEndCall g
        ⟨true, some w1, some w2, some ch, act, t, total, last⟩).1.totalTransferred
      = 0 ∧
    (handleEndCall g
        ⟨true, some w1, some w2, some ch, act, t, total, last⟩).1.lastAuthorizedAmount
      = 0 ∧
    (handleEndCall g
        ⟨true, some w1, some w2, some ch, act, t, total, last⟩).1.hasClient
      = true ∧
    (handleEndCall g
        ⟨true, some w1, some w2, some ch, act, t, total, last⟩).1.wallet1
      = some w1 ∧
    (handleEndCall g
        ⟨true, some w1, some w2, some ch, act, t, total, last⟩).1.wallet2
      = some w2 ∧
    closeSubmitted (handleEndCall g
        ⟨true, some w1, some w2, some ch, act, t, total, last⟩).2 = true ∧
    (total = 0 → (handleEndCall g
        ⟨true, some w1, some w2, some ch, act, t, total, last⟩).2 = [.close ch]) := by
  unfold handleEndCall
  cases total with
  | zero =>
    unfold closePaymentChannel
    by_cases hcl : g.submitCloseTx ch = true <;> simp [hcl, closeSubmitted]
  | succ n =>
    simp only [Nat.succ_ne_zero, false_implies, and_true, if_true, Nat.zero_lt_succ]
    split
    next finalClaim callsA heqA =>
      split
      next callsV heqV =>
        unfold claimPaymentChannel closePaymentChannel
        by_cases hcl : g.submitCloseTx ch = true <;> simp [hcl, closeSubmitted]
      next callsV heqV =>
        unfold closePaymentChannel
        by_cases hcl : g.submitCloseTx ch = true <;> simp [hcl, closeSubmitted]
    next callsA heqA =>
      unfold closePaymentChannel
      by_cases hcl : g.submitCloseTx ch = true <;> simp [hcl, closeSubmitted]

/-- When the session total is already 0, `handleEndCall` sends no
`channel_authorize` request and submits no claim. -/
theorem handleEndCall_zero_total (g : Gateway) (s : AppState)
    (h : s.totalTransferred = 0) :
    authorizeRequested (handleEndCall g s).2 = false ∧
    claimSubmitted (handleEndCall g s).2 = false := by
  rcases s with ⟨hcf, sw1, sw2, sch, act, t, total, last⟩
  simp only at h
  subst h
  rcases sw1 with _ | w1 <;> rcases sw2 with _ | w2 <;>
    rcases sch with _ | ch <;> rcases hcf with _ | _ <;>
    (simp [handleEndCall, authorizeRequested, claimSubmitted,
        closePaymentChannel]
     try (by_cases hcl : g.submitCloseTx ch = true <;> simp [hcl]))

/-- C4: with client, wallets and channel present, `handleEndCall` always
submits the channel-close transaction, whatever the gateway answers for
the final claim authorization, verification or submission. -/
theorem C4_close_always_submitted (g : Gateway) (s : AppState)
    (hc : s.hasClient = true) (hw1 : s.wallet1.isSome = true)
    (hw2 : s.wallet2.isSome = true) (hch : s.channelId.isSome = true) :
    closeSubmitted (handleEndCall g s).2 = true := by
  rcases s with ⟨hcf, sw1, sw2, sch, act, t, total, last⟩
  simp only at hc hw1 hw2 hch
  rcases sw1 with _ | w1
  · simp at hw1
  rcases sw2 with _ | w2
  · simp at hw2
  rcases sch with _ | ch
  · simp at hch
  subst hc
  exact (handleEndCall_main_spec g w1 w2 ch act t total last).2.2.2.2.2.1

/-- Witness for C4: even with the gateway rejecting every request
(authorization, verification, claim submission and close all fail), the
close transaction is submitted from a mid-session state. -/
theorem C4_close_always_submitted_witness :
    closeSubmitted (handleEndCall gDown sMid).2 = true :=
  C4_close_always_submitted gDown sMid rfl rfl rfl rfl

/-- C7: a second `handleEndCall` immediately after a first one (the first
leaves `totalTransferred = 0` whenever it ran its settlement path)
performs no claim authorization and no claim submission. -/
theorem C7_second_endcall_no_claim (g1 g2 : Gateway) (s : AppState) :
    authorizeRequested (handleEndCall g2 (handleEndCall g1 s).1).2 = false ∧
    claimSubmitted (handleEndCall g2 (handleEndCall g1 s).1).2 = false := by
  rcases s with ⟨hcf, sw1, sw2, sch, act, t, total, last⟩
  rcases sw1 with _ | w1 <;> rcases sw2 with _ | w2 <;>
    rcases sch with _ | ch <;> rcases hcf with _ | _
  all_goals first
    | (simp [handleEndCall, authorizeRequested, claimSubmitted]; done)
    | exact handleEndCall_zero_total g2 _
        (handleEndCall_main_spec g1 w1 w2 ch act t total last).1

/-- C10: with client, wallets and channel present, `handleEndCall`
zeroes `totalTransferred` and `lastAuthorizedAmount` unconditionally,
whether or not the final claim submission or the close transaction
succeeded. -/
theorem C10_counters_reset (g : Gateway) (s : AppState)
    (hc : s.hasClient = true) (hw1 : s.wallet1.isSome = true)
    (hw2 : s.wallet2.isSome = true) (hch : s.channelId.isSome = true) :
    (handleEndCall g s).1.totalTransferred = 0 ∧
    (handleEndCall g s).1.lastAuthorizedAmount = 0 := by
  rcases s with ⟨hcf, sw1, sw2, sch, act, t, total, last⟩
  simp only at hc hw1 hw2 hch
  rcases sw1 with _ | w1
  · simp at hw1
  rcases sw2 with _ | w2
  · simp at hw2
  rcases sch with _ | ch
  · simp at hch
  subst hc
  exact ⟨(handleEndCall_main_spec g w1 w2 ch act t total last).1,
    (handleEndCall_main_spec g w1 w2 ch act t total last).2.1⟩

/-- Witness for C10: with every gateway request failing (claim not
submitted, channel not closed), the counters are still zeroed. -/
theorem C10_counters_reset_witness :
    (handleEndCall gDown sMid).1.totalTransferred = 0 ∧
    (handleEndCall gDown sMid).1.lastAuthorizedAmount = 0 :=
  C10_counters_reset gDown sMid rfl rfl rfl rfl

/-- C8: with client and wallets present, the channel-open operation
yields no channel identifier exactly when the creation transaction is
rejected (thrown submit or unusable metadata) or the state-change records
contain no `CreatedNode` of ledger-entry type `PayChannel`; when the
search finds such an entry, the operation returns that entry's ledger
index and stores it as the channel identifier. -/
theorem C8_create_channel (g : Gateway) (s : AppState)
    (hc : s.hasClient = true) (hw1 : s.wallet1.isSome = true)
    (hw2 : s.wallet2.isSome = true) :
    ((createPaymentChannel g s).2.1 = none ↔
      g.createChannelResult = none ∨ g.createChannelResult = some .missing ∨
      ∃ l, g.createChannelResult = some (.nodes l) ∧
        ∀ n ∈ l, isPayChannelCreated n = false) ∧
    (∀ l n, g.createChannelResult = some (.nodes l) →
      l.find? isPayChannelCreated = some n →
      ∃ c, n.createdNode = some c ∧ c.ledgerEntryType = "PayChannel" ∧
        (createPaymentChannel g s).2.1 = some c.ledgerIndex ∧
        (createPaymentChannel g s).1.channelId = some c.ledgerIndex) := by
  rcases s with ⟨hcf, sw1, sw2, sch, act, t, total, last⟩
  simp only at hc hw1 hw2
  rcases sw1 with _ | w1
  · simp at hw1
  rcases sw2 with _ | w2
  · simp at hw2
  subst hc
  constructor
  · rcases hres : g.createChannelResult with _ | m
    · simp [createPaymentChannel, hres]
    · rcases m with _ | l
      · simp [createPaymentChannel, hres]
      · rcases hf : l.find? isPayChannelCreated with _ | n
        · have hval : (createPaymentChannel g
              ⟨true, some w1, some w2, sch, act, t, total, last⟩).2.1 = none := by
            simp [createPaymentChannel, hres, hf]
          rw [hval]
          simp only [true_iff]
          refine Or.inr (Or.inr ⟨l, rfl, fun x hx => ?_⟩)
          have := List.find?_eq_none.mp hf x hx
          simpa using this
        · have hpred : isPayChannelCreated n = true := List.find?_some hf
          have hmem : n ∈ l := List.mem_of_find?_eq_some hf
          rcases hcn : n.createdNode with _ | c
          · unfold isPayChannelCreated at hpred
            rw [hcn] at hpred
            cases hpred
          · have hval : (createPaymentChannel g
                ⟨true, some w1, some w2, sch, act, t, total, last⟩).2.1
                  = some c.ledgerIndex := by
              simp [createPaymentChannel, hres, hf, hcn]
            rw [hval]
            simp only [reduceCtorEq, false_iff, not_or, not_exists, not_and]
            refine ⟨by simp, by simp, fun l' hl' => ?_⟩
            obtain rfl : l' = l := by
              simp only [Option.some.injEq, TxMeta.nodes.injEq] at hl'
              exact hl'.symm
            intro hall
            exact absurd (hall n hmem) (by simp [hpred])
  · intro l n hres hf
    have hpred : isPayChannelCreated n = true := List.find?_some hf
    unfold isPayChannelCreated at hpred
    rcases hcn : n.createdNode with _ | c
    · rw [hcn] at hpred; cases hpred
    · rw [hcn] at hpred
      refine ⟨c, rfl, by simpa using hpred, ?_, ?_⟩ <;>
        simp [createPaymentChannel, hres, hf, hcn]

/-- Witness for C8: a confirmation whose state change carries a
`PayChannel` `CreatedNode` with index `CHAN1` makes the open operation
return and store `CHAN1`. -/
theorem C8_create_channel_witness :
    (createPaymentChannel gOK sOpen).2.1 = some "CHAN1" ∧
    (createPaymentChannel gOK sOpen).1.channelId = some "CHAN1" := by
  obtain ⟨c, hc1, _, h3, h4⟩ :=
    (C8_create_channel gOK sOpen rfl rfl rfl).2
      [⟨some ⟨"PayChannel", "CHAN1"⟩⟩] ⟨some ⟨"PayChannel", "CHAN1"⟩⟩ rfl rfl
  simp only at hc1
  obtain rfl : c = ⟨"PayChannel", "CHAN1"⟩ := by
    injection hc1 with h
    exact h.symm
  exact ⟨h3, h4⟩

/-- The claim returned by `authorizePaymentChannelClaim` carries exactly
`xrpToDrops amount` drops. -/
theorem authorize_claim_drops (g : Gateway) (s : AppState) (amount : Nat) :
    ((authorizePaymentChannelClaim g s amount).1.all
      fun cl => cl.amount == xrpToDrops amount) = true := by
  rcases s with ⟨hcf, sw1, sw2, sch, act, t, total, last⟩
  rcases sw1 with _ | w1 <;> rcases sch with _ | ch <;>
    rcases hcf with _ | _ <;>
    simp [authorizePaymentChannelClaim]
  cases hA : g.channelAuthorize ch (xrpToDrops amount) w1.seed <;>
    simp [hA]

/-- Every gateway call of a tick carries the drops of the one grown
amount `totalTransferred + TRANSFER_AMOUNT`. -/
theorem transferXRP_calls_drops (g : Gateway) (s : AppState) :
    ((transferXRP g s).2.all fun c =>
      c.dropsOf == some (xrpToDrops (s.totalTransferred + TRANSFER_AMOUNT)))
      = true := by
  rcases s with ⟨hcf, sw1, sw2, sch, act, t, total, last⟩
  rcases sw1 with _ | w1 <;> rcases sw2 with _ | w2 <;>
    rcases sch with _ | ch <;> rcases hcf with _ | _ <;>
    rcases act with _ | _
  all_goals try (simp [transferXRP, transferXRPAt]; done)
  simp only [transferXRP, transferXRPAt, authorizePaymentChannelClaim,
    verifyPaymentChannelClaim]
  cases hA : g.channelAuthorize ch (xrpToDrops (total + TRANSFER_AMOUNT))
      w1.seed with
  | none => simp [hA, GwCall.dropsOf]
  | some sig =>
    cases hV : g.channelVerify ch sig w1.publicKey
        (xrpToDrops (total + TRANSFER_AMOUNT)) <;>
      simp [hA, hV, GwCall.dropsOf]

/-- The claim returned by `authorizePaymentChannelClaim` carries
`xrpToDrops amount` drops, and so does every gateway call it makes. -/
theorem authorizePaymentChannelClaim_spec (g : Gateway) (s : AppState)
    (amount : Nat) :
    (∀ cl, (authorizePaymentChannelClaim g s amount).1 = some cl →
      cl.amount = xrpToDrops amount) ∧
    (∀ c ∈ (authorizePaymentChannelClaim g s amount).2,
      c.dropsOf = some (xrpToDrops amount)) := by
  unfold authorizePaymentChannelClaim
  rcases hw1 : s.wallet1 with _ | w1 <;> rcases hch : s.channelId with _ | ch
  all_goals try (simp; done)
  by_cases hcl : s.hasClient = true
  · simp only [hcl, if_true]
    cases hA : g.channelAuthorize ch (xrpToDrops amount) w1.seed <;>
      simp [hA, GwCall.dropsOf]
  · simp [hcl]

/-- Every gateway call `verifyPaymentChannelClaim` makes carries the
amount it was given. -/
theorem verifyPaymentChannelClaim_calls (g : Gateway) (s : AppState)
    (sig : String) (amt : Nat) :
    ∀ c ∈ (verifyPaymentChannelClaim g s sig amt).2,
      c.dropsOf = some amt := by
  unfold verifyPaymentChannelClaim
  rcases hw1 : s.wallet1 with _ | w1 <;> rcases hch : s.channelId with _ | ch
  all_goals try (simp; done)
  by_cases hcl : s.hasClient = true <;> simp [hcl, GwCall.dropsOf]

/-- Every gateway call `claimPaymentChannel` makes carries the amount it
was given. -/
theorem claimPaymentChannel_calls (g : Gateway) (s : AppState)
    (sig : String) (amt : Nat) :
    ∀ c ∈ (claimPaymentChannel g s sig amt).2, c.dropsOf = some amt := by
  unfold claimPaymentChannel
  rcases hw2 : s.wallet2 with _ | w2 <;> rcases hch : s.channelId with _ | ch
  all_goals try (simp; done)
  by_cases hcl : s.hasClient = true <;> simp [hcl, GwCall.dropsOf]

/-- The close transaction carries no drops amount. -/
theorem closePaymentChannel_calls (g : Gateway) (s : AppState) :
    ∀ c ∈ (closePaymentChannel g s).2.2, c.dropsOf = none := by
  unfold closePaymentChannel
  rcases hw1 : s.wallet1 with _ | w1 <;> rcases hch : s.channelId with _ | ch
  all_goals try (simp; done)
  by_cases hcl : s.hasClient = true
  · by_cases hcl2 : g.submitCloseTx ch = true <;>
      simp [hcl, hcl2, GwCall.dropsOf]
  · simp [hcl]

/-- Every gateway call of `handleEndCall` either carries no amount (the
close transaction) or carries the drops of the one settled amount
`totalTransferred`. -/
theorem handleEndCall_calls_spec (g : Gateway) (s : AppState) :
    ∀ c ∈ (handleEndCall g s).2,
      c.dropsOf = none ∨ c.dropsOf = some (xrpToDrops s.totalTransferred) := by
  rcases s with ⟨hcf, sw1, sw2, sch, act, t, total, last⟩
  rcases sw1 with _ | w1 <;> rcases sw2 with _ | w2 <;>
    rcases sch with _ | ch <;> rcases hcf with _ | _
  all_goals try (simp [handleEndCall]; done)
  unfold handleEndCall
  simp only
  by_cases ht : 0 < total
  · simp only [ht, if_true]
    split
    next finalClaim callsA heqA =>
      have hA := authorizePaymentChannelClaim_spec g
        ⟨true, some w1, some w2, some ch, false, t, total, last⟩ total
      rw [heqA] at hA
      have hAmt : finalClaim.amount = xrpToDrops total := hA.1 finalClaim rfl
      have hA2 : ∀ c ∈ callsA, c.dropsOf = some (xrpToDrops total) :=
        fun c hcm => hA.2 c hcm
      split
      next callsV heqV =>
        have hV := verifyPaymentChannelClaim_calls g
          ⟨true, some w1, some w2, some ch, false, t, total, last⟩
          finalClaim.signature finalClaim.amount
        rw [heqV] at hV
        have hC := claimPaymentChannel_calls g
          ⟨true, some w1, some w2, some ch, false, t, total, last⟩
          finalClaim.signature finalClaim.amount
        rcases hCm : claimPaymentChannel g
            ⟨true, some w1, some w2, some ch, false, t, total, last⟩
            finalClaim.signature finalClaim.amount with ⟨rC, callsC⟩
        rw [hCm] at hC
        have hX := closePaymentChannel_calls g
          ⟨true, some w1, some w2, some ch, false, t, total, last⟩
        rcases hXm : closePaymentChannel g
            ⟨true, some w1, some w2, some ch, false, t, total, last⟩
            with ⟨s3, r3, callsClose⟩
        rw [hXm] at hX
        intro c hcm
        simp only [List.append_assoc, List.mem_append] at hcm
        rcases hcm with hcm | hcm | hcm | hcm
        · exact Or.inr (hA2 c hcm)
        · exact Or.inr (by rw [hV c hcm, hAmt])
        · exact Or.inr (by rw [hC c hcm, hAmt])
        · exact Or.inl (hX c hcm)
      next callsV heqV =>
        have hV := verifyPaymentChannelClaim_calls g
          ⟨true, some w1, some w2, some ch, false, t, total, last⟩
          finalClaim.signature finalClaim.amount
        rw [heqV] at hV
        have hX := closePaymentChannel_calls g
          ⟨true, some w1, some w2, some ch, false, t, total, last⟩
        rcases hXm : closePaymentChannel g
            ⟨true, some w1, some w2, some ch, false, t, total, last⟩
            with ⟨s3, r3, callsClose⟩
        rw [hXm] at hX
        intro c hcm
        simp only [List.append_assoc, List.mem_append] at hcm
        rcases hcm with hcm | hcm | hcm
        · exact Or.inr (hA2 c hcm)
        · exact Or.inr (by rw [hV c hcm, hAmt])
        · exact Or.inl (hX c hcm)
    next callsA heqA =>
      have hA := authorizePaymentChannelClaim_spec g
        ⟨true, some w1, some w2, some ch, false, t, total, last⟩ total
      rw [heqA] at hA
      have hX := closePaymentChannel_calls g
        ⟨true, some w1, some w2, some ch, false, t, total, last⟩
      rcases hXm : closePaymentChannel g
          ⟨true, some w1, some w2, some ch, false, t, total, last⟩
          with ⟨s3, r3, callsClose⟩
      rw [hXm] at hX
      intro c hcm
      simp only [List.mem_append] at hcm
      rcases hcm with hcm | hcm
      · exact Or.inr (hA.2 c hcm)
      · exact Or.inl (hX c hcm)
  · simp only [ht, if_false]
    have hX := closePaymentChannel_calls g
      ⟨true, some w1, some w2, some ch, false, t, total, last⟩
    rcases hXm : closePaymentChannel g
        ⟨true, some w1, some w2, some ch, false, t, total, last⟩
        with ⟨s3, r3, callsClose⟩
    rw [hXm] at hX
    intro c hcm
    simp only [List.nil_append, List.mem_append] at hcm
    exact Or.inl (hX c hcm)

/-- Every amount-carrying gateway call of `handleEndCall` carries the
drops of the one settled amount `totalTransferred`. -/
theorem handleEndCall_calls_drops (g : Gateway) (s : AppState) :
    ((handleEndCall g s).2.all fun c =>
      c.dropsOf.getD (xrpToDrops s.totalTransferred)
        == xrpToDrops s.totalTransferred) = true := by
  rw [List.all_eq_true]
  intro c hcm
  rcases handleEndCall_calls_spec g s c hcm with h | h <;> simp [h]

/-- The channel-funding transaction carries `xrpToDrops 10` drops. -/
theorem createChannel_calls_drops (g : Gateway) (s : AppState) :
    ((createPaymentChannel g s).2.2.all fun c =>
      c.dropsOf == some (xrpToDrops 10)) = true := by
  rcases s with ⟨hcf, sw1, sw2, sch, act, t, total, last⟩
  rcases sw1 with _ | w1 <;> rcases sw2 with _ | w2 <;>
    rcases hcf with _ | _ <;>
    simp [createPaymentChannel, GwCall.dropsOf]
  rcases hres : g.createChannelResult with _ | m
  · simp [GwCall.dropsOf]
  · rcases m with _ | l
    · simp [GwCall.dropsOf]
    · rcases hf : l.find? isPayChannelCreated with _ | n
      · simp [hf, GwCall.dropsOf]
      · rcases hcn : n.createdNode with _ | c <;>
          simp [hf, hcn, GwCall.dropsOf]

/-- C9: every amount the controller transmits to the gateway is the
integer drops value `xrpToDrops = amount * 10^6` of the human-scale XRP
amount, converted exactly once at the input boundary: the claim returned
by authorization carries `xrpToDrops amount`; every gateway call of a
tick carries the drops of the one grown amount
`totalTransferred + TRANSFER_AMOUNT`; every amount-carrying call of
`handleEndCall` (final authorization, verification and claim submission)
carries the drops of the one settled amount `totalTransferred`; the
channel funding carries `xrpToDrops 10`. -/
theorem C9_single_drops_conversion (g : Gateway) (s : AppState)
    (amount : Nat) :
    xrpToDrops amount = amount * 1000000 ∧
    ((authorizePaymentChannelClaim g s amount).1.all
      fun cl => cl.amount == xrpToDrops amount) = true ∧
    ((transferXRP g s).2.all fun c =>
      c.dropsOf == some (xrpToDrops (s.totalTransferred + TRANSFER_AMOUNT)))
      = true ∧
    ((handleEndCall g s).2.all fun c =>
      c.dropsOf.getD (xrpToDrops s.totalTransferred)
        == xrpToDrops s.totalTransferred) = true ∧
    ((createPaymentChannel g s).2.2.all fun c =>
      c.dropsOf == some (xrpToDrops 10)) = true :=
  ⟨rfl, authorize_claim_drops g s amount, transferXRP_calls_drops g s,
    handleEndCall_calls_drops g s, createChannel_calls_drops g s⟩

/-- Witness for C6: under the consistent fake gateway, the claim
authorized for 3 XRP verifies. -/
theorem C6_roundtrip_witness :
    (verifyPaymentChannelClaim gFake sOpen (mkFakeSig "CHAN1" (xrpToDrops 3))
      (xrpToDrops 3)).1 = true :=
  C6_roundtrip gFake sOpen wA "CHAN1" rfl rfl rfl
    (fun chan a sig => by
      simp only [gFake, beq_iff_eq, Option.some.injEq]
      exact eq_comm)
    3 ⟨mkFakeSig "CHAN1" (xrpToDrops 3), xrpToDrops 3⟩ rfl

end PWC
